import Mathlib

/-!
Verification development for the RomComp ROM-compression tool.

The definitions below are a shallow embedding of the Rust sources
(`src/rom_format.rs`, `src/search.rs`, `src/convert.rs`, `src/main.rs`):

* `RomFormat` bit flags are modelled as `Nat` values with the exact bit
  layout of the `bitflags!` declaration; `RomFormat.contains` is the
  bitflags containment test `self & other == other`.
* Filesystem paths handled as strings by the Rust code are modelled as
  `List Char`; the `Path` operations used by the code (`parent`,
  `file_name`, `file_stem`, `join`) are implemented on that type.
* The two `regex_replace!` calls of `convert.rs` are modelled by explicit
  leftmost-match scanners that follow the regex semantics of the patterns
  used by the code (note that in `iso|(cue(\.txt)?)$` the alternative
  `iso` is NOT anchored to the end of the string).
* The conversion job thread of `Converter::convert` is modelled as a pure
  function `job_run` over an explicit environment recording the behaviour
  of the external world (tool spawn/exit, cancellation signal, zip write
  errors); a `none` result models a thread panic (an `unwrap` failure),
  which performs no cleanup and never decrements the running-thread count.
* The directory flattener is modelled over an explicit finite filesystem
  (`FS`) together with an event trace of every mutation it performs.
-/

namespace RomFormat

/-- bin file, in combination with a cue or cue.txt file (bit 0b1). -/
def BIN : Nat := 0b1

/-- iso file (bit 0b10). -/
def ISO : Nat := 0b10

/-- Nintendo 64 ROM (bit 0b100). -/
def N64 : Nat := 0b100

/-- Nintendo 64 ROM, byte-swapped variant (bit 0b1000). -/
def V64 : Nat := 0b1000

/-- Nintendo 64 ROM, canonical variant (bit 0b10000). -/
def Z64 : Nat := 0b10000

/-- Nintendo DS ROM (bit 0b100000). -/
def NDS : Nat := 0b100000

/-- the file format flags (mask 0b11111111). -/
def FILE_FORMATS : Nat := 0b11111111

/-- PlayStation platform bit. -/
def PlayStationX : Nat := 0b100000000

/-- PlayStation 2 platform bit. -/
def PlayStation2 : Nat := 0b1000000000

/-- PlayStation Portable platform bit. -/
def PlayStationPortable : Nat := 0b10000000000

/-- Nintendo 64 platform bit (any of the 3 n64 formats). -/
def Nintendo64 : Nat := 0b100000000000

/-- Nintendo DS platform bit. -/
def NintendoDS : Nat := 0b1000000000000

/-- Nintendo Wii platform bit. -/
def NintendoWii : Nat := 0b10000000000000

/-- bitflags containment: `self.contains(other)` is `self & other == other`. -/
def contains (self other : Nat) : Bool := self &&& other == other

end RomFormat

/-- The external compression tools known to RomComp (`rom_format.rs`). -/
inductive CompressionTool where
  | BitButcher
  | Chdman
  | DolphinTool
  | MaxCSO
  | Rom64
  deriving DecidableEq, Repr

namespace RomFormat

/-- `RomFormat::compression_tool` from `rom_format.rs` lines 92-106. -/
def compression_tool (self : Nat) : Option CompressionTool :=
  if contains self PlayStationX || contains self PlayStation2 then
    some CompressionTool.Chdman
  else if contains self PlayStationPortable then
    some CompressionTool.MaxCSO
  else if contains self Nintendo64 && !contains self Z64 then
    some CompressionTool.Rom64
  else if contains self NintendoDS then
    some CompressionTool.BitButcher
  else if contains self NintendoWii then
    some CompressionTool.DolphinTool
  else
    none

end RomFormat

/-- The platform families of the tool-resolution precedence order, as the
specification describes them: the PSX/PS2 disc pair, then PSP, then the
Nintendo 64 cartridge family, then the Nintendo DS handheld family, then
the Wii disc-console family. -/
inductive ToolFamily where
  | discPair
  | psp
  | cartridge
  | handheld
  | discWii
  deriving DecidableEq, Repr

/-- Modelled from the spec: whether a capability bit-set makes a family of
the precedence chain applicable.  The cartridge stage is skipped when the
capability already carries the canonical single-file variant bit (Z64). -/
def family_applies (f : Nat) : ToolFamily → Bool
  | ToolFamily.discPair =>
      RomFormat.contains f RomFormat.PlayStationX ||
        RomFormat.contains f RomFormat.PlayStation2
  | ToolFamily.psp => RomFormat.contains f RomFormat.PlayStationPortable
  | ToolFamily.cartridge =>
      RomFormat.contains f RomFormat.Nintendo64 &&
        !RomFormat.contains f RomFormat.Z64
  | ToolFamily.handheld => RomFormat.contains f RomFormat.NintendoDS
  | ToolFamily.discWii => RomFormat.contains f RomFormat.NintendoWii

/-- Modelled from the spec: the tool attached to each applicable family. -/
def family_tool : ToolFamily → CompressionTool
  | ToolFamily.discPair => CompressionTool.Chdman
  | ToolFamily.psp => CompressionTool.MaxCSO
  | ToolFamily.cartridge => CompressionTool.Rom64
  | ToolFamily.handheld => CompressionTool.BitButcher
  | ToolFamily.discWii => CompressionTool.DolphinTool

/-- Modelled from the spec: the fixed precedence order of tool resolution. -/
def tool_precedence : List ToolFamily :=
  [ToolFamily.discPair, ToolFamily.psp, ToolFamily.cartridge,
    ToolFamily.handheld, ToolFamily.discWii]

/-- Modelled from the spec: the first family of a precedence list that is
applicable to the capability bit-set. -/
def find_family (f : Nat) : List ToolFamily → Option ToolFamily
  | [] => none
  | t :: rest => if family_applies f t then some t else find_family f rest

/-- Modelled from the spec: resolve a capability bit-set by scanning the
precedence list for the first applicable family; no applicable family
resolves to no tool. -/
def resolve_tool_spec (f : Nat) : Option CompressionTool :=
  (find_family f tool_precedence).map family_tool

/-! ### Path-string helpers (`std::path` operations used by the code) -/

/-- Lowercase every character; models `str::to_lowercase` for the ASCII
paths the code manipulates. -/
def lowerChars (l : List Char) : List Char := l.map Char.toLower

/-- Everything before the last `/` separator; models
`Path::parent().unwrap()` for relative paths (the parent of a bare file
name is the empty path, as in Rust). -/
def parentPath (l : List Char) : List Char :=
  ((l.reverse.dropWhile (fun c => !(c == '/'))).drop 1).reverse

/-- Everything after the last `/` separator; models `Path::file_name`. -/
def fileNamePath (l : List Char) : List Char :=
  (l.reverse.takeWhile (fun c => !(c == '/'))).reverse

/-- The file name up to (not including) its last dot; the whole name when
there is no dot or when the only dot is the leading character.  Models
`Path::file_stem().unwrap()`. -/
def fileStemPath (l : List Char) : List Char :=
  let n := fileNamePath l
  let afterDot := n.reverse.takeWhile (fun c => !(c == '.'))
  if afterDot.length == n.length then n
  else
    let stem := ((n.reverse.dropWhile (fun c => !(c == '.'))).drop 1).reverse
    if stem.isEmpty then n else stem

/-- `Path::join` for a relative directory and a file name. -/
def joinPath (dir name : List Char) : List Char :=
  if dir.isEmpty then name else dir ++ '/' :: name

/-- Does the (already lowercased) list end with the given suffix? -/
def endsWithLower (l suffix_ : List Char) : Bool :=
  List.isSuffixOf suffix_ (lowerChars l)

/-- Does `iso` (case-insensitively) occur at the head of the list?  This
is the first, UNANCHORED alternative of the `convert.rs` pattern
`iso|(cue(\.txt)?)$`. -/
def matchIsoHere : List Char → Bool
  | a :: b :: c :: _ => a.toLower == 'i' && b.toLower == 's' && c.toLower == 'o'
  | _ => false

/-- Does the whole remaining list match `(cue(\.txt)?)$`, i.e. is it
exactly `cue` or `cue.txt` up to case? -/
def matchCueToEnd (l : List Char) : Bool :=
  lowerChars l == ['c', 'u', 'e'] ||
    lowerChars l == ['c', 'u', 'e', '.', 't', 'x', 't']

/-- Leftmost-match replacement for
`regex_replace!(r"iso|(cue(\.txt)?)$"i, _, "chd")`: scanning left to
right, at each position the alternative `iso` is tried first, then the
end-anchored cue alternative; the first match is replaced by `chd`.
Returns `none` when nothing matches (the macro then yields the original
string unchanged). -/
def replaceIsoCue : List Char → Option (List Char)
  | [] => none
  | c :: rest =>
    if matchIsoHere (c :: rest) then
      some ('c' :: 'h' :: 'd' :: rest.drop 2)
    else if matchCueToEnd (c :: rest) then
      some ['c', 'h', 'd']
    else
      (replaceIsoCue rest).map (fun r => c :: r)

/-- Replacement for `regex_replace!(r"(nds|n64|v64|z64)$"i, _, "zip")`:
the pattern is end-anchored, so it matches exactly when the last three
characters are one of the four cartridge extensions (case-insensitively);
they are then replaced by `zip`. -/
def replaceCartridgeExt (l : List Char) : Option (List Char) :=
  if l.length ≥ 3 then
    let tail3 := lowerChars (l.drop (l.length - 3))
    if tail3 == ['n', 'd', 's'] || tail3 == ['n', '6', '4'] ||
        tail3 == ['v', '6', '4'] || tail3 == ['z', '6', '4'] then
      some (l.take (l.length - 3) ++ ['z', 'i', 'p'])
    else none
  else none

/-- Replacement for `regex_replace!(r"\.txt$"i, _, "")` used on cue-sheet
paths: strips a trailing `.txt` (case-insensitively) when present. -/
def stripTxtSuffix (l : List Char) : List Char :=
  if l.length ≥ 4 && lowerChars (l.drop (l.length - 4)) == ['.', 't', 'x', 't'] then
    l.take (l.length - 4)
  else l

namespace Converter

/-- `Converter::get_output_file_name` from `convert.rs` lines 79-109. -/
def get_output_file_name (file : List Char) (format : Nat) : Option (List Char) :=
  if RomFormat.contains format RomFormat.PlayStationX ||
      RomFormat.contains format RomFormat.PlayStation2 then
    some ((replaceIsoCue file).getD file)
  else if RomFormat.contains format RomFormat.PlayStationPortable then
    some (joinPath (parentPath file) (fileStemPath file ++ ['.', 'c', 's', 'o']))
  else if RomFormat.contains format RomFormat.NintendoWii then
    some (joinPath (parentPath file) (fileStemPath file ++ ['.', 'r', 'v', 'z']))
  else if RomFormat.contains format RomFormat.Nintendo64 ||
      RomFormat.contains format RomFormat.NintendoDS then
    some ((replaceCartridgeExt file).getD file)
  else
    none

end Converter

/-! ### Classifier and file-set planner -/

/-- The fragment of the outside world the classifier and planner consult:
which paths exist as files, and what `CD::parse_file` returns for a path
(`some tracks` lists the track file names of a successfully parsed cue
sheet; `none` is a parse failure). -/
structure World where
  files : List (List Char)
  cueTracks : List Char → Option (List (List Char))

/-- `guess_file` from `search.rs` lines 5-44. -/
def guess_file (w : World) (path : List Char) : Option Nat :=
  let e := fileNamePath path
  if e.isEmpty then none
  else if w.files.contains path &&
      (endsWithLower e ['.', 'c', 'u', 'e'] ||
        endsWithLower e ['.', 'c', 'u', 'e', '.', 't', 'x', 't']) then
    match w.cueTracks path with
    | none => none
    | some tracks =>
      if tracks.all (fun t =>
          endsWithLower t ['.', 'b', 'i', 'n'] &&
            w.files.contains (joinPath (parentPath path) t)) then
        some (RomFormat.PlayStationX ||| RomFormat.PlayStation2 ||| RomFormat.BIN)
      else none
  else if w.files.contains path && endsWithLower e ['.', 'i', 's', 'o'] then
    some (RomFormat.PlayStationX ||| RomFormat.PlayStation2 |||
      RomFormat.PlayStationPortable ||| RomFormat.NintendoWii ||| RomFormat.ISO)
  else if w.files.contains path && endsWithLower e ['.', 'n', '6', '4'] then
    some (RomFormat.N64 ||| RomFormat.Nintendo64)
  else if w.files.contains path && endsWithLower e ['.', 'v', '6', '4'] then
    some (RomFormat.V64 ||| RomFormat.Nintendo64)
  else if w.files.contains path && endsWithLower e ['.', 'z', '6', '4'] then
    some (RomFormat.Z64 ||| RomFormat.Nintendo64)
  else if w.files.contains path && endsWithLower e ['.', 'n', 'd', 's'] then
    some (RomFormat.NDS ||| RomFormat.NintendoDS)
  else none

/-- Role tag of a managed file (`FileSource` in `convert.rs`). -/
inductive FileSource where
  /-- input to romcomp, not created by us -/
  | Input
  /-- temporary, created by romcomp -/
  | Temporary
  /-- the compression target, created during the conversion -/
  | Output
  deriving DecidableEq, Repr

/-- The `prepare_files` closure of `Converter::convert`
(`convert.rs` lines 176-241).  Returns `none` when `CD::parse_file(p)`
fails, where the Rust code panics on `unwrap`. -/
def prepare_files (w : World) (temp_dir p : List Char) (format : Nat) :
    Option (List (List Char × FileSource)) :=
  if RomFormat.contains format RomFormat.BIN then
    let base := [(p, FileSource.Input)]
    let base :=
      if List.isSuffixOf ['c', 'u', 'e', '.', 't', 'x', 't'] (fileNamePath p) then
        base ++ [(stripTxtSuffix p, FileSource.Temporary)]
      else base
    match w.cueTracks p with
    | none => none
    | some tracks =>
      some (base ++ tracks.map (fun t => (joinPath (parentPath p) t, FileSource.Input)))
  else if RomFormat.contains format RomFormat.Nintendo64 then
    if !RomFormat.contains format RomFormat.Z64 then
      some [(p, FileSource.Input),
        (joinPath (parentPath p) (fileStemPath p ++ ['.', 'z', '6', '4']),
          FileSource.Temporary)]
    else
      some [(p, FileSource.Input)]
  else if RomFormat.contains format RomFormat.NintendoDS then
    some [(p, FileSource.Input),
      (joinPath temp_dir (fileNamePath p), FileSource.Temporary)]
  else
    some [(p, FileSource.Input)]

/-- The `cleanup` closure of `Converter::convert` (`convert.rs` lines
243-271), abstracted to the ordered list of paths it passes to
`remove_file`: Temporary entries unconditionally, Input entries only
under the remove policy on a non-interrupted run, Output entries only on
an interrupted run. -/
def cleanup_removed (l : List (List Char × FileSource))
    (remove_after_compression interrupted : Bool) : List (List Char) :=
  match l with
  | [] => []
  | (file, source) :: rest =>
    if source == FileSource.Temporary then
      file :: cleanup_removed rest remove_after_compression interrupted
    else if source == FileSource.Input && remove_after_compression && !interrupted then
      file :: cleanup_removed rest remove_after_compression interrupted
    else if source == FileSource.Output && interrupted then
      file :: cleanup_removed rest remove_after_compression interrupted
    else
      cleanup_removed rest remove_after_compression interrupted

/-! ### The conversion job -/

/-- An external tool invocation: program name and argument vector. -/
structure ToolCmd where
  program : String
  args : List (List Char)
  deriving DecidableEq, Repr

/-- The inline tool-expression selection of `Converter::convert`
(`convert.rs` lines 336-382).  The result is two-layered:
`none` models the panic of the `.unwrap()` in the NintendoDS branch
(no Temporary staged file found), `some none` is "no tool to run", and
`some (some cmd)` is the tool invocation. -/
def job_expression (format : Nat) (in_file out_file : List Char)
    (files : List (List Char × FileSource)) : Option (Option ToolCmd) :=
  if RomFormat.contains format RomFormat.PlayStationX ||
      RomFormat.contains format RomFormat.PlayStation2 then
    some (some ⟨"chdman",
      ["createcd".data, "-i".data, in_file, "-o".data, out_file]⟩)
  else if RomFormat.contains format RomFormat.PlayStationPortable then
    some (some ⟨"maxcso", [in_file]⟩)
  else if RomFormat.contains format RomFormat.Nintendo64 &&
      !RomFormat.contains format RomFormat.Z64 then
    some (some ⟨"rom64", ["convert".data, in_file]⟩)
  else if RomFormat.contains format RomFormat.NintendoDS then
    match files.find? (fun x => x.2 == FileSource.Temporary) with
    | some t => some (some ⟨"BitButcher", ["-e".data, t.1]⟩)
    | none => none
  else if RomFormat.contains format RomFormat.NintendoWii then
    some (some ⟨"dolphin-tool",
      ["convert".data, "-b".data, "131072".data, "-c".data, "zstd".data,
        "-f".data, "rvz".data, "-i".data, in_file, "-l".data, "5".data,
        "-o".data, out_file]⟩)
  else
    some none

/-- Outcome of the tool poll loop (`convert.rs` lines 392-411): the child
exits successfully, it exits with a failure (or `try_wait` errors), or
the cancellation signal is observed first. -/
inductive ToolResult where
  | exitSuccess
  | exitFailure
  | cancelled
  deriving DecidableEq, Repr

/-- One iteration of the zip stream-copy inner loop (`convert.rs` lines
445-466): a chunk write succeeds, the cancellation signal is observed
before the write, or the write itself errors. -/
inductive WriteStep where
  | ok
  | cancelSignal
  | err
  deriving DecidableEq, Repr

/-- The value of the `interrupted` flag after the zip stream-copy loop:
a cancellation observation sets it and breaks, a write error breaks the
loop WITHOUT setting it. -/
def zip_copy_interrupted : List WriteStep → Bool
  | [] => false
  | WriteStep.ok :: rest => zip_copy_interrupted rest
  | WriteStep.cancelSignal :: _ => true
  | WriteStep.err :: _ => false

/-- Outcome of the tool poll loop as the value of the `interrupted` flag
(`convert.rs` lines 384-412): with a tool expression present, the flag is
set unless the child exited successfully; with no tool expression the
loop does not run and the flag stays clear. -/
def tool_phase_interrupted (expression : Option ToolCmd) (tool : ToolResult) : Bool :=
  match expression with
  | some _ => tool != ToolResult.exitSuccess
  | none => false

/-- Behaviour of the external world during one job: whether
`Expression::start()` succeeds, what the tool poll loop observes, the
sequence of zip-loop iterations, and the on-disk size of the output file
measured at the end (`size_on_disk().unwrap_or(0)`). -/
structure JobEnv where
  spawnOk : Bool
  tool : ToolResult
  zipSteps : List WriteStep
  outSize : Nat
  deriving Repr

/-- Observable result of one conversion-job thread: its managed files,
the tool it invoked (if any), the final `interrupted` flag, the ordered
paths removed by cleanup, whether the flattener ran, and the amounts
added to the shared counters. -/
structure JobResult where
  files : List (List Char × FileSource)
  invoked : Option ToolCmd
  interrupted : Bool
  removed : List (List Char)
  flattened : Bool
  input_added : Nat
  output_added : Nat
  processed_added : Nat
  deriving DecidableEq, Repr

/-- The final value of the job's `interrupted` flag: the tool-phase value
(`convert.rs` lines 384-412), possibly set further by the zip stream-copy
loop which runs only for Nintendo 64 / Nintendo DS formats and only when
the tool phase was not interrupted (`convert.rs` lines 414-473). -/
def job_interrupted (format : Nat) (expression : Option ToolCmd) (env : JobEnv) : Bool :=
  if !tool_phase_interrupted expression env.tool &&
      (RomFormat.contains format RomFormat.Nintendo64 ||
        RomFormat.contains format RomFormat.NintendoDS) then
    zip_copy_interrupted env.zipSteps
  else
    tool_phase_interrupted expression env.tool

/-- The tool input file of the job (`convert.rs` lines 324-329): for the
cue-sheet format a trailing `.txt` is stripped from the submitted path,
otherwise the submitted path itself. -/
def job_in_file (p : List Char) (format : Nat) : List Char :=
  if RomFormat.contains format RomFormat.BIN then stripTxtSuffix p else p

/-- The measured input size (`convert.rs` lines 316-322): the sum of the
on-disk sizes of the Input-tagged managed files. -/
def job_input_size (sizes : List Char → Nat)
    (files0 : List (List Char × FileSource)) : Nat :=
  (files0.filter (fun x => x.2 == FileSource.Input)).foldl (fun a x => a + sizes x.1) 0

/-- The body of the job thread spawned by `Converter::convert`
(`convert.rs` lines 314-492) as a pure function of the environment.
A `none` result models a thread panic (`unwrap` failure): no cleanup
runs, no counter is updated and the running-thread count is never
decremented.  In particular a tool spawn failure
(`.start().unwrap()`, line 390) panics. -/
def job_run (w : World) (sizes : List Char → Nat) (temp_dir p : List Char)
    (format : Nat) (rem flat : Bool) (env : JobEnv) : Option JobResult :=
  match prepare_files w temp_dir p format with
  | none => none
  | some files0 =>
    match Converter.get_output_file_name (job_in_file p format) format with
    | none => none
    | some out_file =>
      match job_expression format (job_in_file p format) out_file
          (files0 ++ [(out_file, FileSource.Output)]) with
      | none => none
      | some expression =>
        if expression.isSome && !env.spawnOk then
          none
        else
          some
            { files := files0 ++ [(out_file, FileSource.Output)]
              invoked := expression
              interrupted := job_interrupted format expression env
              removed := cleanup_removed (files0 ++ [(out_file, FileSource.Output)]) rem
                (job_interrupted format expression env)
              flattened := flat && !(job_interrupted format expression env)
              input_added := if !(job_interrupted format expression env) then
                job_input_size sizes files0 else 0
              output_added := if !(job_interrupted format expression env) then
                env.outSize else 0
              processed_added := if !(job_interrupted format expression env) then 1 else 0 }

/-! ### Scheduler state and submission -/

/-- The shared atomic counters of `Converter` (`convert.rs` lines 31-44). -/
structure Counters where
  thread_count : Nat
  processed_files : Nat
  skipped_files : Nat
  input_file_size : Nat
  output_file_size : Nat
  deriving DecidableEq, Repr

/-- The all-zero counters of `Converter::new`. -/
def Counters.init : Counters := ⟨0, 0, 0, 0, 0⟩

/-- How a call to `Converter::convert` returns to the caller: skipping
because the output exists, abandoning admission because the cancellation
signal fired during the slot wait, or admitting the job (incrementing the
running count and spawning the job thread). -/
inductive SubmitResult where
  | skipped
  | abandoned
  | admitted
  deriving DecidableEq, Repr

/-- Does the prospective output of `(file, format)` already exist
(`convert.rs` lines 137-140)? -/
def output_exists (w : World) (file : List Char) (format : Nat) : Bool :=
  match Converter.get_output_file_name file format with
  | some f => w.files.contains f
  | none => false

/-- The submission prologue of `Converter::convert` (`convert.rs` lines
136-175): the output-exists check increments only the skipped counter and
returns; an interrupt observed during the admission wait returns with no
change; otherwise the running count is incremented and the job thread is
spawned. -/
def convert_submit (w : World) (file : List Char) (format : Nat)
    (interrupt_during_wait : Bool) (s : Counters) : Counters × SubmitResult :=
  if output_exists w file format then
    ({ s with skipped_files := s.skipped_files + 1 }, SubmitResult.skipped)
  else if interrupt_during_wait then
    (s, SubmitResult.abandoned)
  else
    ({ s with thread_count := s.thread_count + 1 }, SubmitResult.admitted)

/-- The terminal effect of one submitted job on the shared counters:
`skipped` is the output-exists path, `completed` folds the measured sizes
and increments the processed counter, `interrupted` and `abandoned`
change no counter (`convert.rs` lines 141, 153-155, 483-490). -/
inductive JobOutcome where
  | skipped
  | completed (isz osz : Nat)
  | interrupted
  | abandoned
  deriving DecidableEq, Repr

/-- Fold one job's terminal counter update into the shared counters. -/
def applyOutcome (s : Counters) : JobOutcome → Counters
  | JobOutcome.skipped => { s with skipped_files := s.skipped_files + 1 }
  | JobOutcome.completed isz osz =>
    { s with
      input_file_size := s.input_file_size + isz
      output_file_size := s.output_file_size + osz
      processed_files := s.processed_files + 1 }
  | JobOutcome.interrupted => s
  | JobOutcome.abandoned => s

/-- The counters after all submitted jobs have terminated (what `finish`
reads after its drain loop). -/
def runBatch (s : Counters) (l : List JobOutcome) : Counters :=
  l.foldl applyOutcome s

/-! ### The directory flattener

The flattener works on real directories, so it is modelled over an
explicit finite filesystem: the component lists of the existing files and
of the existing directories.  Every mutation it performs is recorded in
an event trace.  The two `while` loops of the Rust code are modelled with
an explicit fuel argument that strictly exceeds the depth of the starting
directory, which the loops (each step moves to the parent) can never
exhaust. -/

/-- A filesystem path as its list of components. -/
abbrev CPath := List String

/-- `Path::parent` on component lists: `none` for the empty path. -/
def parentC : CPath → Option CPath
  | [] => none
  | x :: xs => some (x :: xs).dropLast

/-- A finite filesystem: the existing files and the existing directories. -/
structure FS where
  files : List CPath
  dirs : List CPath
  deriving DecidableEq, Repr

/-- The number of entries `read_dir` yields for a directory: its
immediate children among the existing files and directories. -/
def childCount (fs : FS) (d : CPath) : Nat :=
  ((fs.files ++ fs.dirs).filter (fun q => parentC q == some d)).length

/-- A mutation performed by the flattener. -/
inductive FsEvent where
  | moved (src dst : CPath)
  | removedDir (d : CPath)
  deriving DecidableEq, Repr

/-- Can `rename(src, dst)` succeed: the source file exists and the
destination's parent directory exists. -/
def renameOk (fs : FS) (src dst : CPath) : Bool :=
  fs.files.contains src &&
    (match parentC dst with
     | some d => fs.dirs.contains d
     | none => false)

/-- Effect of a successful `rename(src, dst)` on the filesystem. -/
def applyRename (fs : FS) (src dst : CPath) : FS :=
  { fs with files := dst :: fs.files.erase src }

/-- Can `remove_dir d` succeed: the directory exists and is empty. -/
def removeDirOk (fs : FS) (d : CPath) : Bool :=
  fs.dirs.contains d && childCount fs d == 0

/-- Effect of a successful `remove_dir d` on the filesystem. -/
def applyRemoveDir (fs : FS) (d : CPath) : FS :=
  { fs with dirs := fs.dirs.erase d }

/-- The upward walk of `flatten_directories` (`convert.rs` lines
274-280): keep ascending while the current directory starts with the
root boundary (which is also true OF the root itself) and `read_dir`
succeeds with exactly one entry.  The result is the first ancestor
failing the test (`none` when the walk runs off the top of the path). -/
def ascendLoop (fs : FS) (root : CPath) : Nat → CPath → Option CPath
  | 0, _ => none
  | fuel + 1, d =>
    if List.isPrefixOf root d && fs.dirs.contains d && childCount fs d == 1 then
      match parentC d with
      | none => none
      | some d2 => ascendLoop fs root fuel d2
    else some d

/-- The removal walk of `flatten_directories` (`convert.rs` lines
298-310): starting from the output file's original parent, remove each
directory and step to its parent until reaching the stopping ancestor
`dir`; a `remove_dir` failure aborts the remaining steps. -/
def removeLoop (fs : FS) (dir : Option CPath) (ev : List FsEvent) :
    Nat → CPath → FS × List FsEvent
  | 0, _ => (fs, ev)
  | fuel + 1, c =>
    if some c = dir then (fs, ev)
    else if removeDirOk fs c then
      match parentC c with
      | none => (applyRemoveDir fs c, ev ++ [FsEvent.removedDir c])
      | some c2 =>
        removeLoop (applyRemoveDir fs c) dir (ev ++ [FsEvent.removedDir c]) fuel c2
    else (fs, ev)

/-- The `flatten_directories` closure of `Converter::convert`
(`convert.rs` lines 273-312), returning the resulting filesystem together
with the trace of mutations it performed. -/
def flatten_directories (fs : FS) (file root : CPath) : FS × List FsEvent :=
  let dir : Option CPath :=
    match parentC file with
    | none => none
    | some d => ascendLoop fs root (d.length + 1) d
  if dir.isSome && dir ≠ parentC file then
    match dir, parentC file, file.getLast? with
    | some d, some fp, some name =>
      let dst := d ++ [name]
      if renameOk fs file dst then
        removeLoop (applyRename fs file dst) (some d)
          [FsEvent.moved file dst] (fp.length + 1) fp
      else (fs, [])
    | _, _, _ => (fs, [])
  else (fs, [])

/-! ### Helper lemmas -/

theorem cleanup_interrupted_removed (l : List (List Char × FileSource)) (rem : Bool) :
    cleanup_removed l rem true =
      (l.filter (fun x => !(x.2 == FileSource.Input))).map Prod.fst := by
  induction l with
  | nil => rfl
  | cons x rest ih =>
    obtain ⟨pth, src⟩ := x
    cases src <;> simp [cleanup_removed, ih]

theorem mem_cleanup_removed_output (l : List (List Char × FileSource)) (rem : Bool)
    (q : List Char) (hq : (q, FileSource.Output) ∈ l) :
    q ∈ cleanup_removed l rem true := by
  rw [cleanup_interrupted_removed]
  exact List.mem_map.mpr ⟨(q, FileSource.Output),
    List.mem_filter.mpr ⟨hq, rfl⟩, rfl⟩

theorem zip_copy_err_not_interrupted (pre post : List WriteStep)
    (h : ∀ st ∈ pre, st = WriteStep.ok) :
    zip_copy_interrupted (pre ++ WriteStep.err :: post) = false := by
  induction pre with
  | nil => rfl
  | cons st rest ih =>
    have hst : st = WriteStep.ok := h st (List.mem_cons_self st rest)
    subst hst
    exact ih (fun s hs => h s (List.mem_cons_of_mem _ hs))

theorem job_interrupted_some_failure (format : Nat) (c : ToolCmd) (env : JobEnv)
    (ht : env.tool ≠ ToolResult.exitSuccess) :
    job_interrupted format (some c) env = true := by
  have hb : (env.tool != ToolResult.exitSuccess) = true := bne_iff_ne.mpr ht
  simp [job_interrupted, tool_phase_interrupted, hb]

theorem job_run_some_inv {w : World} {sizes : List Char → Nat} {temp_dir p : List Char}
    {format : Nat} {rem flat : Bool} {env : JobEnv} {r : JobResult}
    (h : job_run w sizes temp_dir p format rem flat env = some r) :
    ∃ files0 out_file expression,
      prepare_files w temp_dir p format = some files0 ∧
      Converter.get_output_file_name (job_in_file p format) format = some out_file ∧
      job_expression format (job_in_file p format) out_file
        (files0 ++ [(out_file, FileSource.Output)]) = some expression ∧
      (expression.isSome && !env.spawnOk) = false ∧
      r = { files := files0 ++ [(out_file, FileSource.Output)]
            invoked := expression
            interrupted := job_interrupted format expression env
            removed := cleanup_removed (files0 ++ [(out_file, FileSource.Output)]) rem
              (job_interrupted format expression env)
            flattened := flat && !(job_interrupted format expression env)
            input_added := if !(job_interrupted format expression env) then
              job_input_size sizes files0 else 0
            output_added := if !(job_interrupted format expression env) then env.outSize else 0
            processed_added := if !(job_interrupted format expression env) then 1 else 0 } := by
  unfold job_run at h
  split at h
  · exact Option.noConfusion h
  split at h
  · exact Option.noConfusion h
  split at h
  · exact Option.noConfusion h
  split at h
  · exact Option.noConfusion h
  injection h with h
  refine ⟨_, _, _, ?_, ?_, ?_, ?_, h.symm⟩
  · assumption
  · assumption
  · assumption
  · rename_i hspawn
    simpa using hspawn

theorem runBatch_cons (s : Counters) (o : JobOutcome) (l : List JobOutcome) :
    runBatch s (o :: l) = runBatch (applyOutcome s o) l := rfl

theorem runBatch_bytes_mono (s : Counters) (l : List JobOutcome) :
    s.input_file_size ≤ (runBatch s l).input_file_size ∧
      s.output_file_size ≤ (runBatch s l).output_file_size := by
  induction l generalizing s with
  | nil => exact ⟨Nat.le_refl _, Nat.le_refl _⟩
  | cons o rest ih =>
    refine ⟨Nat.le_trans ?_ (ih (applyOutcome s o)).1,
      Nat.le_trans ?_ (ih (applyOutcome s o)).2⟩ <;>
      cases o <;> simp [applyOutcome]

theorem runBatch_count (s : Counters) (l : List JobOutcome)
    (h : ∀ o ∈ l, o = JobOutcome.skipped ∨ ∃ i j, o = JobOutcome.completed i j) :
    (runBatch s l).processed_files + (runBatch s l).skipped_files =
      s.processed_files + s.skipped_files + l.length := by
  induction l generalizing s with
  | nil => rfl
  | cons o rest ih =>
    have hrec := ih (applyOutcome s o)
      (fun o2 h2 => h o2 (List.mem_cons_of_mem _ h2))
    rcases h o (List.mem_cons_self o rest) with rfl | ⟨i, j, rfl⟩ <;>
      rw [runBatch_cons, hrec] <;> simp [applyOutcome] <;> omega

/-! ### Concrete scenarios used by the claim theorems -/

/-- A world with no files and no parseable cue sheets. -/
def emptyWorld : World := ⟨[], fun _ => none⟩

/-- The world of the bin/cue scenario: `game.bin` and `game.cue` exist,
and the cue sheet parses to the single track file `game.bin`. -/
def binCueWorld : World :=
  { files := ["game.bin".data, "game.cue".data]
    cueTracks := fun q => if q = "game.cue".data then some ["game.bin".data] else none }

/-- A world in which the prospective output `game.chd` already exists. -/
def existingOutputWorld : World := ⟨["game.chd".data], fun _ => none⟩

/-- The result of a PSP job whose tool invocation was cancelled (or,
identically, exited with a failure status). -/
def psp_cancelled_result : JobResult :=
  { files := [("game.iso".data, FileSource.Input), ("game.cso".data, FileSource.Output)]
    invoked := some ⟨"maxcso", ["game.iso".data]⟩
    interrupted := true
    removed := ["game.cso".data]
    flattened := false
    input_added := 0
    output_added := 0
    processed_added := 0 }

/-! ### Claim theorems -/

/-- Claim C5 (confirmed): for every capability bit-set, the code's tool
resolution `RomFormat.compression_tool` agrees with the fixed precedence
chain of the specification (PSX/PS2 shared disc tool first, then PSP,
then the Nintendo 64 cartridge family — skipped when the canonical Z64
variant bit is set — then Nintendo DS, then Wii, otherwise no tool);
in particular a canonical-variant Nintendo 64 capability resolves to no
tool, and a bit-set matching no family resolves to no tool. -/
theorem C5_tool_resolution_precedence :
    (∀ f : Nat, RomFormat.compression_tool f = resolve_tool_spec f) ∧
      RomFormat.compression_tool (RomFormat.Nintendo64 ||| RomFormat.Z64) = none ∧
      RomFormat.compression_tool 0 = none := by
  refine ⟨fun f => ?_, by decide, by decide⟩
  simp only [RomFormat.compression_tool, resolve_tool_spec, tool_precedence, find_family,
    family_applies, family_tool]
  cases hpsx : (RomFormat.contains f RomFormat.PlayStationX ||
      RomFormat.contains f RomFormat.PlayStation2) <;>
    cases hpsp : RomFormat.contains f RomFormat.PlayStationPortable <;>
      cases hn64 : (RomFormat.contains f RomFormat.Nintendo64 &&
          !RomFormat.contains f RomFormat.Z64) <;>
        cases hnds : RomFormat.contains f RomFormat.NintendoDS <;>
          cases hwii : RomFormat.contains f RomFormat.NintendoWii <;>
            simp [family_tool, hpsx, hpsp, hn64, hnds, hwii]

/-- Claim C6 (confirmed): submitting a job whose computed output file
already exists increments only the skipped counter and returns with the
`skipped` result — no tool invocation, no thread spawn, no running-count
increment, and no other counter change. -/
theorem C6_existing_output_only_skips (w : World) (file : List Char) (format : Nat)
    (interrupt_during_wait : Bool) (s : Counters)
    (h : output_exists w file format = true) :
    convert_submit w file format interrupt_during_wait s =
      ({ s with skipped_files := s.skipped_files + 1 }, SubmitResult.skipped) := by
  simp [convert_submit, h]

/-- Witness for C6 at a concrete input: `game.cue` whose output
`game.chd` already exists. -/
theorem C6_existing_output_only_skips_witness :
    output_exists existingOutputWorld "game.cue".data
        (RomFormat.PlayStationX ||| RomFormat.PlayStation2 ||| RomFormat.BIN) = true ∧
      convert_submit existingOutputWorld "game.cue".data
          (RomFormat.PlayStationX ||| RomFormat.PlayStation2 ||| RomFormat.BIN)
          false Counters.init =
        ({ Counters.init with skipped_files := Counters.init.skipped_files + 1 },
          SubmitResult.skipped) :=
  ⟨by decide,
    C6_existing_output_only_skips existingOutputWorld "game.cue".data
      (RomFormat.PlayStationX ||| RomFormat.PlayStation2 ||| RomFormat.BIN)
      false Counters.init (by decide)⟩

/-- Claim C7 (code bug): the output-path computation for PSX/PS2 is NOT a
pure suffix substitution.  Because the `iso` alternative of the pattern
`iso|(cue(\.txt)?)$` is unanchored, the first occurrence of `iso`
anywhere in the path is replaced: `isoland.cue` maps to `chdland.cue`
instead of the suffix substitution `isoland.chd`.  The other families do
substitute only the trailing extension, as the last three conjuncts show
on representative inputs. -/
theorem C7_psx_output_name_replaces_unanchored_iso :
    Converter.get_output_file_name "isoland.cue".data
        (RomFormat.PlayStationX ||| RomFormat.PlayStation2 ||| RomFormat.BIN) =
      some "chdland.cue".data ∧
    "chdland.cue".data ≠ "isoland.chd".data ∧
    Converter.get_output_file_name "game.nds".data
        (RomFormat.NDS ||| RomFormat.NintendoDS) = some "game.zip".data ∧
    Converter.get_output_file_name "game.v64".data
        (RomFormat.V64 ||| RomFormat.Nintendo64) = some "game.zip".data ∧
    Converter.get_output_file_name "game.iso".data
        (RomFormat.ISO ||| RomFormat.PlayStationPortable) = some "game.cso".data ∧
    Converter.get_output_file_name "game.iso".data
        (RomFormat.ISO ||| RomFormat.NintendoWii) = some "game.rvz".data := by
  refine ⟨by decide, by decide, by decide, by decide, by decide, by decide⟩

/-- Claim C8 (confirmed): for the bin/cue scenario (`game.bin` plus
`game.cue`, the cue sheet referencing only `game.bin`), classification
yields RawBinaryWithCueSheet|PSX|PS2 (the BIN, PlayStationX and
PlayStation2 bits), planning produces exactly `game.cue` and `game.bin`
both tagged Input, the computed output path is `game.chd`, and the
selected tool invocation is `chdman createcd -i game.cue -o game.chd`. -/
theorem C8_bin_cue_scenario :
    guess_file binCueWorld "game.cue".data =
      some (RomFormat.PlayStationX ||| RomFormat.PlayStation2 ||| RomFormat.BIN) ∧
    prepare_files binCueWorld "tmp".data "game.cue".data
        (RomFormat.PlayStationX ||| RomFormat.PlayStation2 ||| RomFormat.BIN) =
      some [("game.cue".data, FileSource.Input), ("game.bin".data, FileSource.Input)] ∧
    job_in_file "game.cue".data
        (RomFormat.PlayStationX ||| RomFormat.PlayStation2 ||| RomFormat.BIN) =
      "game.cue".data ∧
    Converter.get_output_file_name "game.cue".data
        (RomFormat.PlayStationX ||| RomFormat.PlayStation2 ||| RomFormat.BIN) =
      some "game.chd".data ∧
    job_expression (RomFormat.PlayStationX ||| RomFormat.PlayStation2 ||| RomFormat.BIN)
        "game.cue".data "game.chd".data
        [("game.cue".data, FileSource.Input), ("game.bin".data, FileSource.Input),
          ("game.chd".data, FileSource.Output)] =
      some (some ⟨"chdman",
        ["createcd".data, "-i".data, "game.cue".data, "-o".data, "game.chd".data]⟩) := by
  refine ⟨by decide, by decide, by decide, by decide, by decide⟩

/-- Claim C3 (confirmed): on an Interrupted termination the cleanup step
removes exactly the Temporary-tagged and Output-tagged managed files (in
list order) and leaves every Input-tagged entry in place, for every
managed-file list and regardless of the remove-after-success policy;
and every job run that terminates with the interrupted flag set performs
exactly that cleanup on its managed-file list. -/
theorem C3_interrupted_cleanup :
    (∀ (l : List (List Char × FileSource)) (rem : Bool),
      cleanup_removed l rem true =
        (l.filter (fun x => !(x.2 == FileSource.Input))).map Prod.fst) ∧
    (∀ (w : World) (sizes : List Char → Nat) (temp_dir p : List Char) (format : Nat)
      (rem flat : Bool) (env : JobEnv) (r : JobResult),
      job_run w sizes temp_dir p format rem flat env = some r →
      r.interrupted = true →
      r.removed = (r.files.filter (fun x => !(x.2 == FileSource.Input))).map Prod.fst) := by
  refine ⟨cleanup_interrupted_removed, ?_⟩
  intro w sizes temp_dir p format rem flat env r hrun hi
  obtain ⟨files0, out_file, expression, hp, ho, he, hs, rfl⟩ := job_run_some_inv hrun
  simp only [] at hi ⊢
  rw [hi]
  exact cleanup_interrupted_removed _ _

/-- Witness for C3 at a concrete input: a cancelled PSP job removes its
Output file `game.cso` and keeps the Input file `game.iso`. -/
theorem C3_interrupted_cleanup_witness :
    job_run emptyWorld (fun _ => 0) "tmp".data "game.iso".data
        (RomFormat.ISO ||| RomFormat.PlayStationPortable) false false
        ⟨true, ToolResult.cancelled, [], 0⟩ = some psp_cancelled_result ∧
      psp_cancelled_result.interrupted = true ∧
      psp_cancelled_result.removed =
        (psp_cancelled_result.files.filter
          (fun x => !(x.2 == FileSource.Input))).map Prod.fst :=
  ⟨by decide, by decide,
    C3_interrupted_cleanup.2 emptyWorld (fun _ => 0) "tmp".data "game.iso".data
      (RomFormat.ISO ||| RomFormat.PlayStationPortable) false false
      ⟨true, ToolResult.cancelled, [], 0⟩ psp_cancelled_result (by decide) (by decide)⟩

/-- Counterexample to claim C4 as stated: a job that terminates
Interrupted increments neither the processed nor the skipped counter, so
after the drain the two counters sum to 0 while one job was submitted. -/
theorem C4_interrupted_job_uncounted :
    (runBatch Counters.init [JobOutcome.interrupted]).processed_files +
        (runBatch Counters.init [JobOutcome.interrupted]).skipped_files = 0 ∧
      [JobOutcome.interrupted].length = 1 := by decide

/-- Claim C4 (corrected): the cumulative byte counters only ever grow as
job outcomes are folded in; and the processed counter plus the skipped
counter equals the number of submitted jobs PROVIDED every submitted job
terminated Skipped or Completed (an Interrupted or abandoned job
increments neither counter, see the counterexample). -/
theorem C4_counters_after_drain :
    (∀ (s : Counters) (l : List JobOutcome),
      s.input_file_size ≤ (runBatch s l).input_file_size ∧
        s.output_file_size ≤ (runBatch s l).output_file_size) ∧
    (∀ l : List JobOutcome,
      (∀ o ∈ l, o = JobOutcome.skipped ∨ ∃ i j, o = JobOutcome.completed i j) →
      (runBatch Counters.init l).processed_files +
          (runBatch Counters.init l).skipped_files = l.length) := by
  refine ⟨runBatch_bytes_mono, fun l h => ?_⟩
  have := runBatch_count Counters.init l h
  simpa [Counters.init] using this

/-- Witness for C4 at a concrete input: a batch of one skipped and one
completed job counts two jobs, with monotone byte counters. -/
theorem C4_counters_after_drain_witness :
    (∀ o ∈ [JobOutcome.skipped, JobOutcome.completed 5 3],
      o = JobOutcome.skipped ∨ ∃ i j, o = JobOutcome.completed i j) ∧
      (runBatch Counters.init [JobOutcome.skipped, JobOutcome.completed 5 3]).processed_files +
          (runBatch Counters.init
            [JobOutcome.skipped, JobOutcome.completed 5 3]).skipped_files = 2 := by
  have hall : ∀ o ∈ [JobOutcome.skipped, JobOutcome.completed 5 3],
      o = JobOutcome.skipped ∨ ∃ i j, o = JobOutcome.completed i j := by
    intro o ho
    rcases List.mem_cons.mp ho with rfl | ho2
    · exact Or.inl rfl
    rcases List.mem_cons.mp ho2 with rfl | ho3
    · exact Or.inr ⟨5, 3, rfl⟩
    · exact absurd ho3 (List.not_mem_nil o)
  exact ⟨hall, C4_counters_after_drain.2 [JobOutcome.skipped, JobOutcome.completed 5 3] hall⟩

/-- The filesystem of the flatten boundary scenario: the chain
`d/root/a/b/c/out.ext` in which `a` is the ONLY entry of the boundary
directory `d/root` (and `d` is the parent of the boundary). -/
def singletonRootFS : FS :=
  { files := [["d", "root", "a", "b", "c", "out.ext"]]
    dirs := [["d"], ["d", "root"], ["d", "root", "a"], ["d", "root", "a", "b"],
      ["d", "root", "a", "b", "c"]] }

/-- The flattened file of the boundary scenario. -/
def singletonRootFile : CPath := ["d", "root", "a", "b", "c", "out.ext"]

/-- The root boundary of the boundary scenario. -/
def singletonRootBoundary : CPath := ["d", "root"]

/-- Claim C1 (code bug): the flattener is NOT confined to the root
boundary.  When the root's only entry is the singleton chain, the upward
walk — whose test `starts_with(root)` also holds OF the root itself —
walks past the root: the output file is moved to the root's parent
directory `d` (outside the boundary) and the root directory itself is
removed, contradicting the spec and the `--flatten` documentation in
`main.rs` ("flatten will never move files outside that given location"). -/
theorem C1_flatten_escapes_root_boundary :
    (flatten_directories singletonRootFS singletonRootFile singletonRootBoundary).2 =
      [FsEvent.moved singletonRootFile ["d", "out.ext"],
        FsEvent.removedDir ["d", "root", "a", "b", "c"],
        FsEvent.removedDir ["d", "root", "a", "b"],
        FsEvent.removedDir ["d", "root", "a"],
        FsEvent.removedDir ["d", "root"]] ∧
      List.isPrefixOf singletonRootBoundary ["d", "out.ext"] = false ∧
      FsEvent.removedDir singletonRootBoundary ∈
        (flatten_directories singletonRootFS singletonRootFile singletonRootBoundary).2 := by
  refine ⟨by decide, by decide, by decide⟩

/-- The minimal filesystem of the three-level chain scenario: exactly
`root/a/b/c/out.ext`, so `a` is the only entry of `root`. -/
def chainMinimalFS : FS :=
  { files := [["root", "a", "b", "c", "out.ext"]]
    dirs := [[], ["root"], ["root", "a"], ["root", "a", "b"], ["root", "a", "b", "c"]] }

/-- The three-level chain filesystem with one additional entry
`root/x` beside `a` in the root. -/
def chainWithSiblingFS : FS :=
  { files := [["root", "a", "b", "c", "out.ext"], ["root", "x"]]
    dirs := [[], ["root"], ["root", "a"], ["root", "a", "b"], ["root", "a", "b", "c"]] }

/-- The flattened file of the three-level chain scenario. -/
def chainFile : CPath := ["root", "a", "b", "c", "out.ext"]

/-- Counterexample to claim C2 as stated: in the minimal layout, where
`a` is the only entry of `root`, the walk does not stop at `root`;
the file is moved to the parent of `root` instead of `root/out.ext`, and
`root` itself is removed after `c`, `b`, `a`. -/
theorem C2_minimal_chain_escapes :
    (flatten_directories chainMinimalFS chainFile ["root"]).2 =
      [FsEvent.moved chainFile ["out.ext"],
        FsEvent.removedDir ["root", "a", "b", "c"],
        FsEvent.removedDir ["root", "a", "b"],
        FsEvent.removedDir ["root", "a"],
        FsEvent.removedDir ["root"]] ∧
      FsEvent.moved chainFile ["root", "out.ext"] ∉
        (flatten_directories chainMinimalFS chainFile ["root"]).2 ∧
      FsEvent.removedDir ["root"] ∈
        (flatten_directories chainMinimalFS chainFile ["root"]).2 := by
  refine ⟨by decide, by decide, by decide⟩

/-- Claim C2 (corrected): provided the boundary `root` holds at least one
entry besides `a` (here the file `root/x`), flattening the three-level
singleton chain `root/a/b/c/out.ext` moves the file to `root/out.ext`
and then removes exactly `c`, `b`, `a`, in that innermost-first order,
leaving `root` in place.  (Without such a sibling the walk continues past
`root`; see the counterexample.) -/
theorem C2_three_level_chain_flatten :
    flatten_directories chainWithSiblingFS chainFile ["root"] =
      ({ files := [["root", "out.ext"], ["root", "x"]], dirs := [[], ["root"]] },
        [FsEvent.moved chainFile ["root", "out.ext"],
          FsEvent.removedDir ["root", "a", "b", "c"],
          FsEvent.removedDir ["root", "a", "b"],
          FsEvent.removedDir ["root", "a"]]) ∧
      ["root"] ∈ (flatten_directories chainWithSiblingFS chainFile ["root"]).1.dirs := by
  refine ⟨by decide, by decide⟩

theorem job_interrupted_ext (format : Nat) (e : Option ToolCmd) (env env2 : JobEnv)
    (h2 : env.tool = env2.tool)
    (h3 : zip_copy_interrupted env.zipSteps = zip_copy_interrupted env2.zipSteps) :
    job_interrupted format e env = job_interrupted format e env2 := by
  unfold job_interrupted tool_phase_interrupted
  cases e <;> rw [h2, h3]

theorem job_run_env_ext (w : World) (sizes : List Char → Nat) (temp_dir p : List Char)
    (format : Nat) (rem flat : Bool) (env env2 : JobEnv)
    (h1 : env.spawnOk = env2.spawnOk) (h2 : env.tool = env2.tool)
    (h3 : zip_copy_interrupted env.zipSteps = zip_copy_interrupted env2.zipSteps)
    (h4 : env.outSize = env2.outSize) :
    job_run w sizes temp_dir p format rem flat env =
      job_run w sizes temp_dir p format rem flat env2 := by
  unfold job_run
  cases hp : prepare_files w temp_dir p format with
  | none => rfl
  | some files0 =>
    simp only []
    cases ho : Converter.get_output_file_name (job_in_file p format) format with
    | none => rfl
    | some out_file =>
      simp only []
      cases he : job_expression format (job_in_file p format) out_file
          (files0 ++ [(out_file, FileSource.Output)]) with
      | none => rfl
      | some expression =>
        simp only []
        rw [h1, h4, job_interrupted_ext format expression env env2 h2 h3]

/-- Claim C9 (corrected): a tool that exits with a non-zero status does
make the job behave exactly like a cancelled job — the same job result,
the Interrupted path, every Output-tagged file removed by cleanup, and no
counter contribution.  A tool that fails to SPAWN, however, does not (see
the counterexample: the `unwrap` on `start()` panics the job thread
before any cleanup, leaving the running count incremented forever). -/
theorem C9_nonzero_exit_behaves_like_cancellation (w : World)
    (sizes : List Char → Nat) (temp_dir p : List Char) (format : Nat)
    (rem flat : Bool) (env : JobEnv) (r : JobResult)
    (hspawn : env.spawnOk = true) (htool : env.tool = ToolResult.exitFailure)
    (hrun : job_run w sizes temp_dir p format rem flat env = some r)
    (hinv : r.invoked.isSome = true) :
    job_run w sizes temp_dir p format rem flat
        { env with tool := ToolResult.cancelled } = some r ∧
      job_run w sizes temp_dir p format rem flat
        { env with spawnOk := false } = none ∧
      r.interrupted = true ∧
      (∀ q, (q, FileSource.Output) ∈ r.files → q ∈ r.removed) ∧
      r.processed_added = 0 ∧ r.input_added = 0 ∧ r.output_added = 0 := by
  obtain ⟨files0, out_file, expression, hp, ho, he, hs, rfl⟩ := job_run_some_inv hrun
  have hinv2 : expression.isSome = true := hinv
  obtain ⟨c, rfl⟩ := Option.isSome_iff_exists.mp hinv2
  have hne : env.tool ≠ ToolResult.exitSuccess := by
    rw [htool]; exact fun hh => ToolResult.noConfusion hh
  have hint : job_interrupted format (some c) env = true :=
    job_interrupted_some_failure format c env hne
  have hint2 : job_interrupted format (some c)
      { spawnOk := true, tool := ToolResult.cancelled, zipSteps := env.zipSteps,
        outSize := env.outSize } = true :=
    job_interrupted_some_failure format c _ (fun hh => ToolResult.noConfusion hh)
  refine ⟨?_, ?_, ?_, ?_, ?_, ?_, ?_⟩
  · simp [job_run, hp, ho, he, hspawn, hint, hint2]
  · simp [job_run, hp, ho, he]
  · exact hint
  · intro q hq
    show q ∈ cleanup_removed (files0 ++ [(out_file, FileSource.Output)]) rem
      (job_interrupted format (some c) env)
    rw [hint]
    exact mem_cleanup_removed_output _ rem q hq
  · show (if !(job_interrupted format (some c) env) then 1 else 0) = 0
    rw [hint]; rfl
  · show (if !(job_interrupted format (some c) env) then
      job_input_size sizes files0 else 0) = 0
    rw [hint]; rfl
  · show (if !(job_interrupted format (some c) env) then env.outSize else 0) = 0
    rw [hint]; rfl

/-- Counterexample to claim C9 as stated for spawn failures: a PSP job
whose tool fails to spawn panics (modelled by the `none` job result — no
cleanup, no running-count decrement), unlike the same job when it is
cancelled, which terminates through the Interrupted path and removes its
Output file. -/
theorem C9_spawn_failure_panics :
    job_run emptyWorld (fun _ => 0) "tmp".data "game.iso".data
        (RomFormat.ISO ||| RomFormat.PlayStationPortable) false false
        ⟨false, ToolResult.exitFailure, [], 0⟩ = none ∧
      job_run emptyWorld (fun _ => 0) "tmp".data "game.iso".data
          (RomFormat.ISO ||| RomFormat.PlayStationPortable) false false
          ⟨true, ToolResult.cancelled, [], 0⟩ = some psp_cancelled_result ∧
      psp_cancelled_result.removed = ["game.cso".data] := by
  refine ⟨by decide, by decide, by decide⟩

/-- Witness for C9 at a concrete input: the PSP job whose tool exits
with a failure status. -/
theorem C9_nonzero_exit_behaves_like_cancellation_witness :
    job_run emptyWorld (fun _ => 0) "tmp".data "game.iso".data
        (RomFormat.ISO ||| RomFormat.PlayStationPortable) false false
        ⟨true, ToolResult.cancelled, [], 0⟩ = some psp_cancelled_result ∧
      psp_cancelled_result.interrupted = true ∧
      psp_cancelled_result.processed_added = 0 :=
  let h := C9_nonzero_exit_behaves_like_cancellation emptyWorld (fun _ => 0)
    "tmp".data "game.iso".data (RomFormat.ISO ||| RomFormat.PlayStationPortable)
    false false ⟨true, ToolResult.exitFailure, [], 0⟩ psp_cancelled_result
    rfl rfl (by decide) (by decide)
  ⟨h.1, h.2.2.1, h.2.2.2.2.1⟩

/-- The job result of a cartridge-family job that completed with a write
error during zipping: not interrupted, processed once, with the given
managed files, invocation, cleanup list and measurements. -/
def zipErrJobResult (files : List (List Char × FileSource)) (invoked : Option ToolCmd)
    (removed : List (List Char)) (isz n : Nat) (flat : Bool) : JobResult :=
  { files := files
    invoked := invoked
    interrupted := false
    removed := removed
    flattened := flat && true
    input_added := isz
    output_added := n
    processed_added := 1 }

/-- Claim C10 (confirmed): for a Nintendo DS job and a Nintendo 64 job
whose external tool succeeded, a write error during the zip stream-copy
(any error step after only successful chunk writes) does NOT mark the job
Interrupted: the job completes, the partially written Output file
`game.zip` is not among the files removed by cleanup, and the processed
counter and byte aggregates are updated exactly as on success, for every
remove-policy setting and every measured size. -/
theorem C10_zip_write_error_still_completes (sizes : List Char → Nat)
    (rem flat : Bool) (pre post : List WriteStep) (n : Nat)
    (h : ∀ st ∈ pre, st = WriteStep.ok) :
    ((job_run emptyWorld sizes "tmp".data "game.nds".data
        (RomFormat.NDS ||| RomFormat.NintendoDS) rem flat
        ⟨true, ToolResult.exitSuccess, pre ++ WriteStep.err :: post, n⟩).map
      (fun r => (r.interrupted, r.processed_added, r.input_added, r.output_added,
        r.removed.contains "game.zip".data)) =
      some (false, 1, sizes "game.nds".data, n, false)) ∧
    ((job_run emptyWorld sizes "tmp".data "game.v64".data
        (RomFormat.V64 ||| RomFormat.Nintendo64) rem flat
        ⟨true, ToolResult.exitSuccess, pre ++ WriteStep.err :: post, n⟩).map
      (fun r => (r.interrupted, r.processed_added, r.input_added, r.output_added,
        r.removed.contains "game.zip".data)) =
      some (false, 1, sizes "game.v64".data, n, false)) := by
  have hz := zip_copy_err_not_interrupted pre post h
  have henv : ∀ (pth : List Char) (fmt : Nat),
      job_run emptyWorld sizes "tmp".data pth fmt rem flat
          ⟨true, ToolResult.exitSuccess, pre ++ WriteStep.err :: post, n⟩ =
        job_run emptyWorld sizes "tmp".data pth fmt rem flat
          ⟨true, ToolResult.exitSuccess, [], n⟩ :=
    fun pth fmt => job_run_env_ext _ _ _ _ _ _ _ _ _ rfl rfl
      (by simp [hz, zip_copy_interrupted]) rfl
  constructor
  · rw [henv]
    cases rem
    · have e2 : job_run emptyWorld sizes "tmp".data "game.nds".data
          (RomFormat.NDS ||| RomFormat.NintendoDS) false flat
          ⟨true, ToolResult.exitSuccess, [], n⟩ =
          some (zipErrJobResult
            [("game.nds".data, FileSource.Input),
              ("tmp/game.nds".data, FileSource.Temporary),
              ("game.zip".data, FileSource.Output)]
            (some ⟨"BitButcher", ["-e".data, "tmp/game.nds".data]⟩)
            ["tmp/game.nds".data] (0 + sizes "game.nds".data) n flat) := rfl
      rw [e2]
      simp [zipErrJobResult]
    · have e2 : job_run emptyWorld sizes "tmp".data "game.nds".data
          (RomFormat.NDS ||| RomFormat.NintendoDS) true flat
          ⟨true, ToolResult.exitSuccess, [], n⟩ =
          some (zipErrJobResult
            [("game.nds".data, FileSource.Input),
              ("tmp/game.nds".data, FileSource.Temporary),
              ("game.zip".data, FileSource.Output)]
            (some ⟨"BitButcher", ["-e".data, "tmp/game.nds".data]⟩)
            ["game.nds".data, "tmp/game.nds".data] (0 + sizes "game.nds".data) n flat) := rfl
      rw [e2]
      simp [zipErrJobResult]
  · rw [henv]
    cases rem
    · have e2 : job_run emptyWorld sizes "tmp".data "game.v64".data
          (RomFormat.V64 ||| RomFormat.Nintendo64) false flat
          ⟨true, ToolResult.exitSuccess, [], n⟩ =
          some (zipErrJobResult
            [("game.v64".data, FileSource.Input),
              ("game.z64".data, FileSource.Temporary),
              ("game.zip".data, FileSource.Output)]
            (some ⟨"rom64", ["convert".data, "game.v64".data]⟩)
            ["game.z64".data] (0 + sizes "game.v64".data) n flat) := rfl
      rw [e2]
      simp [zipErrJobResult]
    · have e2 : job_run emptyWorld sizes "tmp".data "game.v64".data
          (RomFormat.V64 ||| RomFormat.Nintendo64) true flat
          ⟨true, ToolResult.exitSuccess, [], n⟩ =
          some (zipErrJobResult
            [("game.v64".data, FileSource.Input),
              ("game.z64".data, FileSource.Temporary),
              ("game.zip".data, FileSource.Output)]
            (some ⟨"rom64", ["convert".data, "game.v64".data]⟩)
            ["game.v64".data, "game.z64".data] (0 + sizes "game.v64".data) n flat) := rfl
      rw [e2]
      simp [zipErrJobResult]

/-- Witness for C10 at a concrete input: constant file size 7, remove
policy enabled, one successful chunk before the failing write, output
size 3. -/
theorem C10_zip_write_error_still_completes_witness :
    (∀ st ∈ [WriteStep.ok], st = WriteStep.ok) ∧
      ((job_run emptyWorld (fun _ => 7) "tmp".data "game.nds".data
          (RomFormat.NDS ||| RomFormat.NintendoDS) true false
          ⟨true, ToolResult.exitSuccess, [WriteStep.ok, WriteStep.err], 3⟩).map
        (fun r => (r.interrupted, r.processed_added, r.input_added, r.output_added,
          r.removed.contains "game.zip".data)) =
        some (false, 1, 7, 3, false)) :=
  ⟨by decide,
    (C10_zip_write_error_still_completes (fun _ => 7) true false
      [WriteStep.ok] [] 3 (by decide)).1⟩
